import Mathlib

/-!
Verification of the sector market analyzer (analyze_sectors.py) and the
notification sender (notify_line.py).

Price bars are embedded with exact rational prices; pandas Series operations
(cummax, min, max, iloc) become structurally recursive list functions.
Strings keep the exact literals of the source.
-/

namespace MarketAnalyzer

/-- One OHLC price bar.  `ts` is the bar's index timestamp (used by the
date-window filter) and `day` its calendar date (`index.date` in the source);
both are abstracted to integers. -/
structure Bar where
  ts : Int
  day : Int
  Open : ℚ
  High : ℚ
  Low : ℚ
  Close : ℚ
deriving DecidableEq

/-- Minimum of a list, `0` for the empty list (the source only applies
`.min()` to non-empty Series). -/
def listMin : List ℚ → ℚ
  | [] => 0
  | x :: xs => xs.foldl min x

/-- Maximum of a list, `0` for the empty list (the source only applies
`.max()` to non-empty Series). -/
def listMax : List ℚ → ℚ
  | [] => 0
  | x :: xs => xs.foldl max x

/-- Drawdown series continuation: `m` is the running maximum of the `High`
column over the bars already consumed (`roll_max = df.High.cummax()` in
`calculate_mdd_rf`); each bar contributes `(Low - roll_max) / roll_max`. -/
def drawdownsFrom (m : ℚ) : List Bar → List ℚ
  | [] => []
  | b :: bs => (b.Low - max m b.High) / max m b.High :: drawdownsFrom (max m b.High) bs

/-- The series `daily_dd = (df.Low - roll_max) / roll_max` of
`calculate_mdd_rf`; for the first bar the running maximum is its own high. -/
def drawdowns : List Bar → List ℚ
  | [] => []
  | b :: bs => (b.Low - b.High) / b.High :: drawdownsFrom b.High bs

/-- Net return fraction of the window: `(last Close - first Open) / first Open`
(`ret` in `calculate_mdd_rf`); `0` for an empty window (unused: the source
guards on `df.empty`). -/
def retOf : List Bar → ℚ
  | [] => 0
  | b :: bs => ((bs.getLastD b).Close - b.Open) / b.Open

/-- `calculate_mdd_rf` of analyze_sectors.py: returns
`(MDD as a percentage, Recovery Factor)`.  The empty frame gives `(0, 0)`;
otherwise `mdd = daily_dd.min()`, and `rf` is `ret / |mdd|` unless `mdd == 0`,
in which case it is the sentinel `99.99` when `ret > 0` and `0` otherwise. -/
def calculate_mdd_rf : List Bar → ℚ × ℚ
  | [] => (0, 0)
  | b :: bs =>
    let dds := drawdowns (b :: bs)
    let mdd := listMin dds
    let ret := retOf (b :: bs)
    let rf := if mdd = 0 then (if ret > 0 then 9999 / 100 else 0) else ret / |mdd|
    (mdd * 100, rf)

/-- A well-formed bar: positive prices and `Low ≤ High`. -/
def WellFormed (b : Bar) : Prop :=
  0 < b.Open ∧ 0 < b.High ∧ 0 < b.Low ∧ 0 < b.Close ∧ b.Low ≤ b.High

instance (b : Bar) : Decidable (WellFormed b) := by
  unfold WellFormed
  infer_instance

/-- A strictly rising price path through OHLC bars: within each bar the price
runs monotonically from `Open = Low` up to `Close = High`, and the temporal
sequence of bar extremes `Low₀, High₀, Low₁, High₁, …` is strictly
increasing. -/
def chainLt : List ℚ → Bool
  | [] => true
  | [_] => true
  | x :: y :: rest => decide (x < y) && chainLt (y :: rest)

/-- The temporal sequence of bar extremes (each bar's low before its high). -/
def lowHighSeq : List Bar → List ℚ
  | [] => []
  | b :: bs => b.Low :: b.High :: lowHighSeq bs

/-- Decidable form of "the price path is strictly increasing". -/
def risingPath (l : List Bar) : Bool :=
  l.all (fun b => decide (b.Open = b.Low) && decide (b.Close = b.High)) &&
    chainLt (lowHighSeq l)

lemma foldl_min_le_init (xs : List ℚ) (x : ℚ) : xs.foldl min x ≤ x := by
  induction xs generalizing x with
  | nil => simp
  | cons y ys ih =>
    calc ys.foldl min (min x y) ≤ min x y := ih (min x y)
    _ ≤ x := min_le_left x y

lemma listMin_le_head (x : ℚ) (xs : List ℚ) : listMin (x :: xs) ≤ x :=
  foldl_min_le_init xs x

lemma listMin_all_zero (x : ℚ) (xs : List ℚ) (hx : x = 0)
    (hxs : ∀ y ∈ xs, y = 0) : listMin (x :: xs) = 0 := by
  subst hx
  induction xs with
  | nil => simp [listMin]
  | cons y ys ih =>
    have hy : y = 0 := hxs y (by simp)
    subst hy
    have := ih (fun z hz => hxs z (by simp [hz]))
    simpa [listMin] using this

lemma drawdownsFrom_flat_inc (l : List Bar) (m : ℚ)
    (hflat : ∀ x ∈ l, x.Low = x.High)
    (hchain : chainLt (m :: l.map Bar.High) = true) :
    ∀ d ∈ drawdownsFrom m l, d = 0 := by
  induction l generalizing m with
  | nil => intro d hd; simp [drawdownsFrom] at hd
  | cons b bs ih =>
    intro d hd
    have hmb : m < b.High := by
      simp only [List.map_cons, chainLt, Bool.and_eq_true, decide_eq_true_eq] at hchain
      exact hchain.1
    have hmax : max m b.High = b.High := max_eq_right hmb.le
    simp only [drawdownsFrom, hmax, List.mem_cons] at hd
    rcases hd with hd | hd
    · have hlb : b.Low = b.High := hflat b (by simp)
      rw [hd, hlb, sub_self, zero_div]
    · refine ih b.High (fun x hx => hflat x (by simp [hx])) ?_ d hd
      simp only [List.map_cons, chainLt, Bool.and_eq_true] at hchain
      exact hchain.2

lemma calculate_mdd_rf_fst (b : Bar) (bs : List Bar) :
    (calculate_mdd_rf (b :: bs)).1 = listMin (drawdowns (b :: bs)) * 100 := by
  simp [calculate_mdd_rf]

lemma calculate_mdd_rf_snd (b : Bar) (bs : List Bar) :
    (calculate_mdd_rf (b :: bs)).2 =
      if listMin (drawdowns (b :: bs)) = 0 then
        (if retOf (b :: bs) > 0 then 9999 / 100 else 0)
      else retOf (b :: bs) / |listMin (drawdowns (b :: bs))| := by
  simp [calculate_mdd_rf]

/-- C1 (counterexample): the claim routes every `|MDD| ≤ ε` (ε = 0.001 in
percent units) to the sentinel, but the code tests `mdd == 0` exactly.  On a
single bar whose low sits one millionth below its high, `|MDD| = 0.0001 ≤ ε`
with positive return, yet the code returns `RF = 10000`, not the sentinel
(neither 99.99 nor 99.9). -/
theorem C1_counterexample :
    |(calculate_mdd_rf [⟨0, 0, 1000000, 1000000, 999999, 1010000⟩]).1| ≤ 1 / 1000 ∧
      retOf [⟨0, 0, 1000000, 1000000, 999999, 1010000⟩] > 0 ∧
      (calculate_mdd_rf [⟨0, 0, 1000000, 1000000, 999999, 1010000⟩]).2 = 10000 ∧
      (calculate_mdd_rf [⟨0, 0, 1000000, 1000000, 999999, 1010000⟩]).2 ≠ 9999 / 100 ∧
      (calculate_mdd_rf [⟨0, 0, 1000000, 1000000, 999999, 1010000⟩]).2 ≠ 999 / 10 := by
  refine ⟨?_, ?_, ?_, ?_, ?_⟩ <;>
    norm_num [calculate_mdd_rf, drawdowns, drawdownsFrom, listMin, retOf,
      abs_eq_max_neg, max_def]

/-- C1 (amended): for every non-empty filtered bar sequence the Recovery
Factor equals `return_fraction / |MDD_fraction|` whenever the reported MDD is
non-zero — equivalently `RF · |MDD_fraction| = return_fraction` — and when the
reported MDD is exactly zero it equals the sentinel `99.99` if the return is
positive and `0` otherwise; the division is guarded by the zero test. -/
theorem C1_rf_amended (b : Bar) (bs : List Bar) :
    ((calculate_mdd_rf (b :: bs)).1 = 0 →
      (retOf (b :: bs) > 0 → (calculate_mdd_rf (b :: bs)).2 = 9999 / 100) ∧
      (¬ retOf (b :: bs) > 0 → (calculate_mdd_rf (b :: bs)).2 = 0)) ∧
    ((calculate_mdd_rf (b :: bs)).1 ≠ 0 →
      (calculate_mdd_rf (b :: bs)).2 * |(calculate_mdd_rf (b :: bs)).1 / 100| =
        retOf (b :: bs)) := by
  constructor
  · intro h0
    rw [calculate_mdd_rf_fst] at h0
    have hm : listMin (drawdowns (b :: bs)) = 0 := by
      rcases mul_eq_zero.mp h0 with h | h
      · exact h
      · norm_num at h
    constructor
    · intro hr
      rw [calculate_mdd_rf_snd, if_pos hm, if_pos hr]
    · intro hr
      rw [calculate_mdd_rf_snd, if_pos hm, if_neg hr]
  · intro hne
    rw [calculate_mdd_rf_fst] at hne
    have hm : listMin (drawdowns (b :: bs)) ≠ 0 := fun h => hne (by rw [h, zero_mul])
    have habs : |listMin (drawdowns (b :: bs))| ≠ 0 := abs_ne_zero.mpr hm
    rw [calculate_mdd_rf_snd, if_neg hm, calculate_mdd_rf_fst,
      mul_div_assoc, (by norm_num : (100 : ℚ) / 100 = 1), mul_one,
      div_mul_cancel₀ _ habs]

/-- C1 witness: two flat rising bars have reported MDD equal to zero and a
positive return, so the amended theorem yields the sentinel `99.99`. -/
theorem C1_rf_amended_witness :
    (calculate_mdd_rf [⟨0, 0, 100, 100, 100, 100⟩, ⟨1, 1, 110, 110, 110, 110⟩]).2 =
      9999 / 100 :=
  ((C1_rf_amended ⟨0, 0, 100, 100, 100, 100⟩ [⟨1, 1, 110, 110, 110, 110⟩]).1
      (by norm_num [calculate_mdd_rf, drawdowns, drawdownsFrom, listMin, max_def])).1
    (by norm_num [retOf])

/-- C2: for every bar sequence of well-formed bars (positive prices,
`Low ≤ High`), the MDD percentage returned by `calculate_mdd_rf` is ≤ 0. -/
theorem C2_mdd_nonpos (l : List Bar) (h : ∀ b ∈ l, WellFormed b) :
    (calculate_mdd_rf l).1 ≤ 0 := by
  cases l with
  | nil => simp [calculate_mdd_rf]
  | cons b bs =>
    rw [calculate_mdd_rf_fst]
    have hb := h b (by simp)
    have hhead : (b.Low - b.High) / b.High ≤ 0 := by
      apply div_nonpos_of_nonpos_of_nonneg
      · exact sub_nonpos.mpr hb.2.2.2.2
      · exact hb.2.1.le
    have hmin : listMin (drawdowns (b :: bs)) ≤ 0 := by
      calc listMin (drawdowns (b :: bs)) ≤ (b.Low - b.High) / b.High := by
            simp only [drawdowns]
            exact listMin_le_head _ _
        _ ≤ 0 := hhead
    calc listMin (drawdowns (b :: bs)) * 100 ≤ 0 * 100 :=
          mul_le_mul_of_nonneg_right hmin (by norm_num)
      _ = 0 := by ring

/-- C2 witness: a concrete well-formed bar list has non-positive MDD. -/
theorem C2_mdd_nonpos_witness :
    (calculate_mdd_rf [⟨0, 0, 100, 110, 90, 105⟩]).1 ≤ 0 :=
  C2_mdd_nonpos [⟨0, 0, 100, 110, 90, 105⟩] (by decide)

/-- C3 (counterexample): a two-bar sequence whose price path
`100 → 101 → 102 → 103` is strictly increasing still gets a strictly negative
MDD, because the code measures each bar's low against the running maximum of
highs including the bar's own high. -/
theorem C3_counterexample :
    risingPath [⟨0, 0, 100, 101, 100, 101⟩, ⟨1, 1, 102, 103, 102, 103⟩] = true ∧
      ([⟨0, 0, 100, 101, 100, 101⟩, ⟨1, 1, 102, 103, 102, 103⟩] : List Bar) ≠ [] ∧
      (calculate_mdd_rf [⟨0, 0, 100, 101, 100, 101⟩, ⟨1, 1, 102, 103, 102, 103⟩]).1 ≠ 0 := by
  refine ⟨by decide, by simp, ?_⟩
  norm_num [calculate_mdd_rf, drawdowns, drawdownsFrom, listMin, retOf, max_def]

/-- C3 (amended): for every non-empty bar sequence of zero-range bars
(`Low = High`) whose prices are strictly increasing, the computed MDD is 0. -/
theorem C3_mdd_zero_amended (b : Bar) (bs : List Bar)
    (hflat : ∀ x ∈ b :: bs, x.Low = x.High)
    (hinc : chainLt ((b :: bs).map Bar.High) = true) :
    (calculate_mdd_rf (b :: bs)).1 = 0 := by
  rw [calculate_mdd_rf_fst]
  have hhead : (b.Low - b.High) / b.High = 0 := by
    rw [hflat b (by simp), sub_self, zero_div]
  have htail : ∀ d ∈ drawdownsFrom b.High bs, d = 0 := by
    apply drawdownsFrom_flat_inc
    · intro x hx
      exact hflat x (by simp [hx])
    · simpa using hinc
  have hmin : listMin (drawdowns (b :: bs)) = 0 := by
    simp only [drawdowns]
    exact listMin_all_zero _ _ hhead htail
  rw [hmin, zero_mul]

/-- C3 witness: concrete flat strictly increasing bars give MDD = 0. -/
theorem C3_mdd_zero_amended_witness :
    (calculate_mdd_rf [⟨0, 0, 100, 100, 100, 100⟩, ⟨1, 1, 110, 110, 110, 110⟩]).1 = 0 :=
  C3_mdd_zero_amended ⟨0, 0, 100, 100, 100, 100⟩ [⟨1, 1, 110, 110, 110, 110⟩]
    (by decide) (by decide)

/-- Result of `analyze_last_day_shape` (the display-only date string of the
source is omitted). -/
structure ShapeResult where
  score : Int
  desc : String
  movePct : ℚ
  dayOpen : ℚ
  dayHigh : ℚ
  dayClose : ℚ
deriving DecidableEq

/-- The bars of the final bar's calendar date:
`last_day_df = df[df.index.date == last_date]` in `analyze_last_day_shape`. -/
def lastDayGroup (l : List Bar) : List Bar :=
  match l.getLast? with
  | none => []
  | some lb => l.filter fun b => b.day = lb.day

/-- `analyze_last_day_shape` of analyze_sectors.py: isolates the final
calendar day, scores where the close sits in the day range (`> 0.8` → +2,
`< 0.2` → −2), else scores the percent move against the previous close when
available (else the day's open); a zero-range day is a Doji with score 0. -/
def analyze_last_day_shape (l : List Bar) (prevClose : Option ℚ) : ShapeResult :=
  match lastDayGroup l with
  | [] => ⟨0, "N/A", 0, 0, 0, 0⟩
  | b :: bs =>
    let open_p := b.Open
    let close_p := (bs.getLastD b).Close
    let high_p := listMax ((b :: bs).map Bar.High)
    let low_p := listMin ((b :: bs).map Bar.Low)
    let base_p := prevClose.getD open_p
    let move_pct := (close_p - base_p) / base_p * 100
    let range_len := high_p - low_p
    if range_len = 0 then ⟨0, "Doji", move_pct, open_p, high_p, close_p⟩
    else
      let close_pos := (close_p - low_p) / range_len
      if close_pos > 4 / 5 then ⟨2, "高値引け (Strong)", move_pct, open_p, high_p, close_p⟩
      else if close_pos < 1 / 5 then ⟨-2, "安値引け (Weak)", move_pct, open_p, high_p, close_p⟩
      else if move_pct > 3 / 10 then ⟨1, "陽線 (Pos)", move_pct, open_p, high_p, close_p⟩
      else if move_pct < -(3 / 10) then ⟨-1, "陰線 (Neg)", move_pct, open_p, high_p, close_p⟩
      else ⟨0, "保ち合い (Neut)", move_pct, open_p, high_p, close_p⟩

/-- C4: on a non-empty last-day bar group, the shape score is 0 when the
day's high equals its low; otherwise it follows the fixed bands on
`close_position = (close − low)/(high − low)` and, inside the neutral band,
on the percent move against the previous close (else the day's open). -/
theorem C4_last_day_shape (l : List Bar) (prevClose : Option ℚ) (b : Bar)
    (bs : List Bar) (hg : lastDayGroup l = b :: bs) :
    (analyze_last_day_shape l prevClose).score =
      (let close_p := (bs.getLastD b).Close
       let high_p := listMax ((b :: bs).map Bar.High)
       let low_p := listMin ((b :: bs).map Bar.Low)
       let base_p := prevClose.getD b.Open
       let move_pct := (close_p - base_p) / base_p * 100
       if high_p = low_p then 0
       else if (close_p - low_p) / (high_p - low_p) > 4 / 5 then 2
       else if (close_p - low_p) / (high_p - low_p) < 1 / 5 then -2
       else if move_pct > 3 / 10 then 1
       else if move_pct < -(3 / 10) then -1
       else 0) := by
  simp only [analyze_last_day_shape, hg, sub_eq_zero]
  split_ifs <;> rfl

/-- C4 witness: a single bar closing at the top of its range scores +2. -/
theorem C4_last_day_shape_witness :
    (analyze_last_day_shape [⟨0, 5, 100, 110, 100, 110⟩] none).score = 2 := by
  have h := C4_last_day_shape [⟨0, 5, 100, 110, 100, 110⟩] none
    ⟨0, 5, 100, 110, 100, 110⟩ [] (by decide)
  rw [h]
  norm_num [listMax, listMin]

/-- The three narrative slots of `generate_three_scenarios`. -/
structure Scenarios where
  Good : String
  Avg : String
  Bad : String
deriving DecidableEq

/-- `generate_three_scenarios` of analyze_sectors.py: a fixed 3×3 lookup on
(trend regime, last-day score regime) returning a grade and three narrative
strings. -/
def generate_three_scenarios (trend_return : ℚ) (last_score : Int)
    (_last_move : ℚ) : String × Scenarios :=
  if trend_return > 3 then
    if last_score ≥ 1 then
      ("良", ⟨"勢いが加速し、帯状に上昇する (Band Walk)。",
        "上昇トレンド継続。高値更新を試す動き。",
        "利益確定売りで一時的な調整が入る。"⟩)
    else if last_score ≤ -1 then
      ("普", ⟨"押し目を形成し、再度上昇に転じる。",
        "上昇一服。調整局面入りを示唆。",
        "直近安値を割り込み、トレンドが崩れる。"⟩)
    else
      ("良", ⟨"もみ合いを上放れし、再加速する。",
        "上昇トレンド継続。押し目待ち。",
        "調整が長引き、レンジ相場へ移行する。"⟩)
  else if trend_return < -3 then
    if last_score ≥ 1 then
      ("普", ⟨"底打ちを確認し、本格的なリバウンドへ。",
        "自律反発。ショートカバー優勢。",
        "あくまで一時的な反発で、再度安値を更新。"⟩)
    else if last_score ≤ -1 then
      ("悪", ⟨"セリングクライマックスを迎え、急反発する。",
        "下落継続。安値模索の展開。",
        "売りが売りを呼び、パニック的な下げになる。"⟩)
    else
      ("悪", ⟨"下げ止まり、底固めの動きへ。",
        "下落トレンド継続。戻り売り警戒。",
        "ジリジリと下値を切り下げる。"⟩)
  else
    if last_score ≥ 1 then
      ("良", ⟨"レンジを上抜け、新たな上昇トレンドへ。",
        "レンジ上限へのトライ。",
        "レンジ上限で跳ね返され、再度保ち合いへ。"⟩)
    else if last_score ≤ -1 then
      ("悪", ⟨"下限でサポートされ、反発する。",
        "レンジ下限へのトライ。",
        "レンジを下抜け、下落トレンド入りする。"⟩)
    else
      ("普", ⟨"材料出現で動意づく。",
        "方向感なし。様子見。",
        "出来高細り、閑散相場となる。"⟩)

/-- C5: for every input the scenario classifier returns a grade from the
fixed three-value set and non-empty text in all three narrative slots,
across all 9 trend×momentum combinations. -/
theorem C5_scenario_table (tr : ℚ) (ls : Int) (lm : ℚ) :
    ((generate_three_scenarios tr ls lm).1 = "良" ∨
      (generate_three_scenarios tr ls lm).1 = "普" ∨
      (generate_three_scenarios tr ls lm).1 = "悪") ∧
    (generate_three_scenarios tr ls lm).2.Good ≠ "" ∧
    (generate_three_scenarios tr ls lm).2.Avg ≠ "" ∧
    (generate_three_scenarios tr ls lm).2.Bad ≠ "" := by
  unfold generate_three_scenarios
  split_ifs <;> exact ⟨by simp, by simp, by simp, by simp⟩

/-- `filter_data_by_date` of analyze_sectors.py: keep bars with
`start ≤ index` and then bars with `index ≤ end`, each bound optional
(timezone localization is display-only and abstracted away). -/
def filter_data_by_date (l : List Bar) (startB endB : Option Int) : List Bar :=
  let f1 := match startB with
    | none => l
    | some s => l.filter fun b => s ≤ b.ts
  match endB with
  | none => f1
  | some e => f1.filter fun b => b.ts ≤ e

/-- The previous trading day's close computed in `analyze_ticker`: the last
close of the unfiltered series strictly before the filtered window's final
calendar date, if any. -/
def prev_close_of (raw df : List Bar) : Option ℚ :=
  match df.getLast? with
  | none => none
  | some lb =>
    match (raw.filter fun b => b.day < lb.day).getLast? with
    | none => none
    | some p => some p.Close

/-- The per-ticker result assembled by `analyze_ticker` (display-only fields
such as the formatted date range are omitted). -/
structure TickerResult where
  Ticker : String
  Return : ℚ
  LastScore : Int
  LastMove : ℚ
  Grade : String
  scenarios : Scenarios
  MDD : ℚ
  RF : ℚ
deriving DecidableEq

/-- `analyze_ticker` of analyze_sectors.py: missing series or an empty
filtered window yields no result (`None`); otherwise metrics, shape, grade
and scenarios are computed from the filtered bars. -/
def analyze_ticker (ticker : String) (data : String → Option (List Bar))
    (startB endB : Option Int) : Option TickerResult :=
  match data ticker with
  | none => none
  | some raw =>
    match filter_data_by_date raw startB endB with
    | [] => none
    | b :: bs =>
      let ret := retOf (b :: bs) * 100
      let prevClose := prev_close_of raw (b :: bs)
      let shape := analyze_last_day_shape (b :: bs) prevClose
      let gs := generate_three_scenarios ret shape.score shape.movePct
      let mr := calculate_mdd_rf (b :: bs)
      some ⟨ticker, ret, shape.score, shape.movePct, gs.1, gs.2, mr.1, mr.2⟩

/-- The role assignment inside `analyze_sector`'s constituent loop: the
initial `"NEUTRAL"` is always overwritten by the if/else on
`rel_trend > 0`. -/
def roleOf (rel_trend : ℚ) : String :=
  if rel_trend > 0 then "ENGINE (牽引)" else "BRAKE (重石)"

/-- A constituent's result annotated with its role (the free-form `Reason`
string of the source is display-only and omitted). -/
structure StockStat where
  res : TickerResult
  Role : String
deriving DecidableEq

/-- The constituent loop of `analyze_sector`: tickers whose analysis returns
nothing are skipped (`continue`), the rest are annotated with a role. -/
def sector_stats (holdings : List String) (data : String → Option (List Bar))
    (startB endB : Option Int) (sectorReturn : ℚ) : List StockStat :=
  holdings.filterMap fun stock =>
    (analyze_ticker stock data startB endB).map fun st =>
      ⟨st, roleOf (st.Return - sectorReturn)⟩

/-- The breadth-quality block of `analyze_sector`: default `"普通 (Mixed)"`
when there are no constituents, otherwise thresholds on
`engine_count / total`. -/
def breadthQuality (engine_count total : ℕ) : String :=
  if 0 < total then
    let frac : ℚ := (engine_count : ℚ) / (total : ℚ)
    if frac ≥ 4 / 5 then "健全な広がり (Healthy)"
    else if frac ≤ 1 / 5 then "一部への逃避 (Selective)"
    else if frac > 1 / 2 then "やや広い (Broad)"
    else "選別色あり (Mixed)"
  else "普通 (Mixed)"

/-- The sector-level record assembled by `analyze_sector` (display name and
sorted presentation order are display-only and omitted; `stats` keeps the
holdings order in which the loop appends). -/
structure SectorResult where
  sector : String
  ret : ℚ
  grade : String
  quality : String
  stats : List StockStat
  MDD : ℚ
  RF : ℚ
deriving DecidableEq

/-- `analyze_sector` of analyze_sectors.py: fails only when the sector's own
ticker analysis fails; `engine_count` counts roles containing `"ENGINE"`,
which for the two possible role strings is equality with the engine label. -/
def analyze_sector (sector : String) (holdings : List String)
    (data : String → Option (List Bar)) (startB endB : Option Int) :
    Option SectorResult :=
  match analyze_ticker sector data startB endB with
  | none => none
  | some sres =>
    let stats := sector_stats holdings data startB endB sres.Return
    let engine_count := (stats.filter fun st => st.Role = "ENGINE (牽引)").length
    some ⟨sector, sres.Return, sres.Grade, breadthQuality engine_count stats.length,
      stats, sres.MDD, sres.RF⟩

/-- C6: every constituent entering the sector statistics receives exactly one
role — `"ENGINE (牽引)"` exactly when its relative trend is > 0, otherwise
`"BRAKE (重石)"`, and never `"NEUTRAL"`. -/
theorem C6_role_total (holdings : List String) (data : String → Option (List Bar))
    (startB endB : Option Int) (sret : ℚ) (st : StockStat)
    (hmem : st ∈ sector_stats holdings data startB endB sret) :
    (st.Role = "ENGINE (牽引)" ↔ st.res.Return - sret > 0) ∧
    (st.Role = "BRAKE (重石)" ↔ ¬ st.res.Return - sret > 0) ∧
    st.Role ≠ "NEUTRAL" := by
  simp only [sector_stats, List.mem_filterMap] at hmem
  obtain ⟨stock, -, hopt⟩ := hmem
  rw [Option.map_eq_some'] at hopt
  obtain ⟨r, -, hst⟩ := hopt
  cases hst
  unfold roleOf
  by_cases hrel : r.Return - sret > 0
  · simp [hrel]
  · simp [hrel]

/-- The one-ticker data source used to witness the role classifier. -/
def dataC6 : String → Option (List Bar) :=
  fun t => if t = "S" then some [⟨0, 0, 100, 110, 100, 110⟩] else none

lemma sector_stats_dataC6 :
    sector_stats ["S"] dataC6 none none 0 =
      [⟨⟨"S", 10, 2, 10, "良",
          ⟨"勢いが加速し、帯状に上昇する (Band Walk)。",
            "上昇トレンド継続。高値更新を試す動き。",
            "利益確定売りで一時的な調整が入る。"⟩,
          -(100 / 11), 11 / 10⟩, "ENGINE (牽引)"⟩] := by
  norm_num [sector_stats, dataC6, analyze_ticker, filter_data_by_date, retOf,
    prev_close_of, analyze_last_day_shape, lastDayGroup, listMax, listMin,
    generate_three_scenarios, calculate_mdd_rf, drawdowns, drawdownsFrom,
    roleOf, abs_eq_max_neg, max_def, List.filter, List.filterMap_cons,
    List.filterMap_nil, List.getLast?]

/-- C6 witness: the concrete constituent produced from `dataC6` has a role
and it is not `"NEUTRAL"`. -/
theorem C6_role_total_witness :
    (⟨⟨"S", 10, 2, 10, "良",
        ⟨"勢いが加速し、帯状に上昇する (Band Walk)。",
          "上昇トレンド継続。高値更新を試す動き。",
          "利益確定売りで一時的な調整が入る。"⟩,
        -(100 / 11), 11 / 10⟩, "ENGINE (牽引)"⟩ : StockStat).Role ≠ "NEUTRAL" :=
  (C6_role_total ["S"] dataC6 none none 0 _
      (by rw [sector_stats_dataC6]; exact List.mem_singleton_self _)).2.2

/-- C7: the breadth quality label is a pure function of
`engine_count / total`: the default for zero constituents, then the
0.8 / 0.2 / 0.5 thresholds in the source's order; with 5 constituents,
4–5 engines are healthy, 1 is selective, 3 is moderately broad and 2 is
mixed. -/
theorem C7_breadth (e t : ℕ) :
    (t = 0 → breadthQuality e t = "普通 (Mixed)") ∧
    (0 < t →
      ((e : ℚ) / t ≥ 4 / 5 → breadthQuality e t = "健全な広がり (Healthy)") ∧
      ((e : ℚ) / t ≤ 1 / 5 → breadthQuality e t = "一部への逃避 (Selective)") ∧
      (1 / 2 < (e : ℚ) / t ∧ (e : ℚ) / t < 4 / 5 →
        breadthQuality e t = "やや広い (Broad)") ∧
      (1 / 5 < (e : ℚ) / t ∧ (e : ℚ) / t ≤ 1 / 2 →
        breadthQuality e t = "選別色あり (Mixed)")) ∧
    breadthQuality 4 5 = "健全な広がり (Healthy)" ∧
    breadthQuality 5 5 = "健全な広がり (Healthy)" ∧
    breadthQuality 1 5 = "一部への逃避 (Selective)" ∧
    breadthQuality 3 5 = "やや広い (Broad)" ∧
    breadthQuality 2 5 = "選別色あり (Mixed)" := by
  refine ⟨?_, ?_, ?_, ?_, ?_, ?_, ?_⟩
  · intro h0
    simp [breadthQuality, h0]
  · intro ht
    have hr4 : ¬ ((4 : ℚ) / 5 ≤ 1 / 5) := by norm_num
    refine ⟨?_, ?_, ?_, ?_⟩
    · intro h
      simp only [breadthQuality, if_pos ht]
      rw [if_pos h]
    · intro h
      have hlt : ¬ ((e : ℚ) / t ≥ 4 / 5) := by
        intro hge
        exact hr4 (le_trans hge h)
      simp only [breadthQuality, if_pos ht]
      rw [if_neg hlt, if_pos h]
    · rintro ⟨h1, h2⟩
      have hge : ¬ ((e : ℚ) / t ≥ 4 / 5) := by
        intro hge
        exact absurd h2 (not_lt.mpr hge)
      have hle : ¬ ((e : ℚ) / t ≤ 1 / 5) := by
        intro hle
        have : (1 : ℚ) / 2 < 1 / 5 := lt_of_lt_of_le h1 hle
        norm_num at this
      simp only [breadthQuality, if_pos ht]
      rw [if_neg hge, if_neg hle, if_pos h1]
    · rintro ⟨h1, h2⟩
      have hge : ¬ ((e : ℚ) / t ≥ 4 / 5) := by
        intro hge
        have : (4 : ℚ) / 5 ≤ 1 / 2 := le_trans hge h2
        norm_num at this
      have hle : ¬ ((e : ℚ) / t ≤ 1 / 5) := not_le.mpr h1
      have hgt : ¬ ((e : ℚ) / t > 1 / 2) := not_lt.mpr h2
      simp only [breadthQuality, if_pos ht]
      rw [if_neg hge, if_neg hle, if_neg hgt]
  all_goals norm_num [breadthQuality]

/-- C7 witness: 4 of 5 engines indeed hits the healthy threshold through the
general statement. -/
theorem C7_breadth_witness : breadthQuality 4 5 = "健全な広がり (Healthy)" :=
  ((C7_breadth 4 5).2.1 (by norm_num)).1 (by norm_num)

/-- C8: a ticker whose series is missing, or whose bar sequence is empty
after window filtering, produces no result, and the sector constituent loop
drops exactly that constituent while every other symbol's analysis
proceeds. -/
theorem C8_skip_unavailable (data : String → Option (List Bar))
    (startB endB : Option Int) (sret : ℚ) :
    (∀ t, data t = none → analyze_ticker t data startB endB = none) ∧
    (∀ t raw, data t = some raw → filter_data_by_date raw startB endB = [] →
      analyze_ticker t data startB endB = none) ∧
    (∀ pre post stock, analyze_ticker stock data startB endB = none →
      sector_stats (pre ++ stock :: post) data startB endB sret =
        sector_stats pre data startB endB sret ++
          sector_stats post data startB endB sret) := by
  refine ⟨?_, ?_, ?_⟩
  · intro t ht
    simp [analyze_ticker, ht]
  · intro t raw ht hf
    simp [analyze_ticker, ht, hf]
  · intro pre post stock hnone
    simp [sector_stats, List.filterMap_append, List.filterMap_cons, hnone]

/-- The data source used to witness the skip behaviour: `"GOOD"` has a bar
inside the window, `"EMPTY"` only a bar before it. -/
def dataC8 : String → Option (List Bar) := fun t =>
  if t = "GOOD" then some [⟨10, 0, 100, 110, 100, 110⟩]
  else if t = "EMPTY" then some [⟨0, 0, 100, 110, 100, 110⟩]
  else none

/-- C8 witness: with the window starting at 5, `"EMPTY"` filters to no bars
and is skipped while `"GOOD"` is analyzed. -/
theorem C8_skip_unavailable_witness :
    sector_stats ["GOOD", "EMPTY"] dataC8 (some 5) none 0 =
      sector_stats ["GOOD"] dataC8 (some 5) none 0 ++
        sector_stats [] dataC8 (some 5) none 0 :=
  (C8_skip_unavailable dataC8 (some 5) none 0).2.2 ["GOOD"] [] "EMPTY"
    (by decide)

/-- Python string slicing `s[:n]` over code points. -/
def strTake (s : String) (n : ℕ) : String := ⟨s.data.take n⟩

/-- The per-message preparation in notify_line.py's delivery loop: prepend
the page counter `f"({i+1}/{n})\n"` and truncate the result to 5000
characters when it is longer. -/
def buildFinalMsg (i n : ℕ) (msg : String) : String :=
  let header := "(" ++ toString (i + 1) ++ "/" ++ toString n ++ ")\n"
  let final_msg := header ++ msg
  if final_msg.length > 5000 then strTake final_msg 5000 else final_msg

/-- The delivery loop of notify_line.py `main` over the queue tail starting
at index `i` of `n` total messages: each message is prepared, handed to the
push sender (modelled as a boolean success oracle on the final text), and on
the first failure the loop breaks; the returned list is the sequence of
attempted sends with their outcomes. -/
def sendLoopAux (oracle : String → Bool) (n : ℕ) : ℕ → List String → List (String × Bool)
  | _, [] => []
  | i, m :: rest =>
    let fm := buildFinalMsg i n m
    if oracle fm then (fm, true) :: sendLoopAux oracle n (i + 1) rest
    else [(fm, false)]

/-- The whole delivery loop over a message queue. -/
def sendLoop (oracle : String → Bool) (msgs : List String) : List (String × Bool) :=
  sendLoopAux oracle msgs.length 0 msgs

/-- Description of a fully delivered prefix: message `j` of the queue is
pushed exactly once, in order, as `buildFinalMsg j n`, successfully. -/
def okAttempts (n : ℕ) : ℕ → List String → List (String × Bool)
  | _, [] => []
  | i, p :: ps => (buildFinalMsg i n p, true) :: okAttempts n (i + 1) ps

lemma sendLoopAux_ok_segment (oracle : String → Bool) (n : ℕ) (pre : List String)
    (rest : List String) :
    ∀ i, (∀ j (h : j < pre.length),
        oracle (buildFinalMsg (i + j) n (pre.get ⟨j, h⟩)) = true) →
      sendLoopAux oracle n i (pre ++ rest) =
        okAttempts n i pre ++ sendLoopAux oracle n (i + pre.length) rest := by
  induction pre with
  | nil =>
    intro i _
    simp [okAttempts]
  | cons p ps ih =>
    intro i h
    have hp : oracle (buildFinalMsg (i + 0) n p) = true := h 0 (by simp)
    rw [Nat.add_zero] at hp
    have hlen : (i + 1) + ps.length = i + (p :: ps).length := by
      simp [List.length_cons]
      omega
    have hps : ∀ j (hj : j < ps.length),
        oracle (buildFinalMsg ((i + 1) + j) n (ps.get ⟨j, hj⟩)) = true := by
      intro j hj
      have := h (j + 1) (by simpa using Nat.succ_lt_succ hj)
      have hidx : i + (j + 1) = (i + 1) + j := by omega
      rw [hidx] at this
      simpa using this
    simp only [List.cons_append, sendLoopAux, hp, if_true, okAttempts,
      List.append_eq]
    rw [ih (i + 1) hps, hlen]

/-- C9: if every message before index `|pre|` is accepted and the push of
message `m` at that index fails, the delivery loop pushes exactly the earlier
messages once each, in order (they stay delivered), attempts `m` once, and
never touches the queued messages after it. -/
theorem C9_halt_on_failure (oracle : String → Bool) (pre post : List String)
    (m : String)
    (hpre : ∀ j (h : j < pre.length),
      oracle (buildFinalMsg j (pre ++ m :: post).length (pre.get ⟨j, h⟩)) = true)
    (hm : oracle (buildFinalMsg pre.length (pre ++ m :: post).length m) = false) :
    sendLoop oracle (pre ++ m :: post) =
      okAttempts (pre ++ m :: post).length 0 pre ++
        [(buildFinalMsg pre.length (pre ++ m :: post).length m, false)] := by
  unfold sendLoop
  rw [sendLoopAux_ok_segment oracle _ pre (m :: post) 0 ?_]
  · simp only [Nat.zero_add, sendLoopAux, hm, Bool.false_eq_true, if_false]
  · intro j h
    simpa using hpre j h

/-- The push oracle used to witness the halting behaviour: it rejects exactly
the second page. -/
def oracleC9 : String → Bool := fun s => !(s == "(2/3)\nB")

/-- C9 witness: on the queue `["A", "B", "C"]` with the second push failing,
only page 1 is delivered, page 2 is attempted once, and page 3 never is. -/
theorem C9_halt_on_failure_witness :
    sendLoop oracleC9 ["A", "B", "C"] =
      okAttempts 3 0 ["A"] ++ [(buildFinalMsg 1 3 "B", false)] :=
  C9_halt_on_failure oracleC9 ["A"] ["C"] "B"
    (by
      intro j h
      have h1 : j < 1 := by simpa using h
      have hj : j = 0 := by omega
      subst hj
      show oracleC9 (buildFinalMsg 0 3 "A") = true
      decide)
    (by decide)

lemma strTake_length_le (s : String) (n : ℕ) : (strTake s n).length ≤ n := by
  show (s.data.take n).length ≤ n
  rw [List.length_take]
  exact min_le_left _ _

lemma buildFinalMsg_length_le (i n : ℕ) (msg : String) :
    (buildFinalMsg i n msg).length ≤ 5000 := by
  simp only [buildFinalMsg]
  split_ifs with h
  · exact strTake_length_le _ _
  · omega

lemma sendLoopAux_length_le (oracle : String → Bool) (n : ℕ) (ms : List String) :
    ∀ i a, a ∈ sendLoopAux oracle n i ms → a.1.length ≤ 5000 := by
  induction ms with
  | nil =>
    intro i a ha
    simp [sendLoopAux] at ha
  | cons m rest ih =>
    intro i a ha
    cases horacle : oracle (buildFinalMsg i n m) with
    | true =>
      simp only [sendLoopAux, horacle, if_true, List.mem_cons] at ha
      rcases ha with ha | ha
      · rw [ha]
        exact buildFinalMsg_length_le i n m
      · exact ih (i + 1) a ha
    | false =>
      simp only [sendLoopAux, horacle, Bool.false_eq_true, if_false,
        List.mem_singleton] at ha
      rw [ha]
      exact buildFinalMsg_length_le i n m

/-- C10: every message handed to the push sender — page header included — is
at most 5000 characters long; an over-long prepared message is truncated to
its first 5000 characters (and still sent), and every attempt made by the
delivery loop obeys the limit. -/
theorem C10_size_limit :
    (∀ i n msg, (buildFinalMsg i n msg).length ≤ 5000) ∧
    (∀ i n msg,
      ("(" ++ toString (i + 1) ++ "/" ++ toString n ++ ")\n" ++ msg).length > 5000 →
      buildFinalMsg i n msg =
        strTake ("(" ++ toString (i + 1) ++ "/" ++ toString n ++ ")\n" ++ msg) 5000) ∧
    (∀ oracle msgs a, a ∈ sendLoop oracle msgs → a.1.length ≤ 5000) := by
  refine ⟨buildFinalMsg_length_le, ?_, ?_⟩
  · intro i n msg h
    simp only [buildFinalMsg]
    rw [if_pos h]
  · intro oracle msgs a ha
    exact sendLoopAux_length_le oracle msgs.length msgs 0 a ha

/-- A 6000-character message. -/
def bigMsg : String := ⟨List.replicate 6000 (Char.ofNat 97)⟩

/-- C10 witness: the 6000-character message with its header is truncated to
exactly its first 5000 characters. -/
theorem C10_size_limit_witness :
    buildFinalMsg 0 1 bigMsg =
      strTake ("(" ++ toString (0 + 1) ++ "/" ++ toString 1 ++ ")\n" ++ bigMsg) 5000 :=
  C10_size_limit.2.1 0 1 bigMsg (by
    rw [String.length_append]
    have h1 : bigMsg.length = 6000 := by
      rw [← String.length_data]
      show (List.replicate 6000 (Char.ofNat 97)).length = 6000
      rw [List.length_replicate]
    rw [h1]
    norm_num)

end MarketAnalyzer
